import Mathlib

/-!
Verification development for the Streamlit dashboard repository
(Fornecedor.py, Pedidos.py, Pedidos_Venda.py, Produto.py, Estoque.py,
Pagina_Inicial.py).  The Python pages are shallowly embedded: dataframes
become lists of typed rows, raw JSON cell values become an inductive
`Raw` type, the Supabase REST server answering a Range-paginated request
over a fixed result set becomes drop/take on the list of matching rows,
the in-process TTL cache becomes an association list of entries with
insertion timestamps, and the SQLite mirror of Pagina_Inicial.py becomes
a list of records with INSERT OR REPLACE upsert semantics.  Machine
floats are modelled by exact rationals, timestamps and wall-clock times
by naturals.
-/

namespace Dash

/-- A raw cell value as it arrives from the Supabase REST response:
a JSON number, an ISO date (already split into year/month/day), an
arbitrary string, or null. -/
inductive Raw where
  | num (q : ℚ)
  | date (y m d : Nat)
  | str (s : String)
  | null
deriving DecidableEq, Repr

/-- A calendar date (year, month, day) as carried by the DATA /
DATA_PEDIDO columns. -/
structure Date where
  y : Nat
  m : Nat
  d : Nat
deriving DecidableEq, Repr

/-- Numeric key giving the chronological (equivalently, for ISO text,
lexicographic) order SQLite MAX and the gte/lte filters use; faithful
for real dates (month below 100, day below 100). -/
def Date.toNat (a : Date) : Nat := a.y * 10000 + a.m * 100 + a.d

/-- Chronological order on dates, as a Boolean. -/
def Date.leB (a b : Date) : Bool := a.toNat ≤ b.toNat

/-- timedelta(days := 7) as applied by _get_latest_timestamp; exact
whenever the day of month exceeds 7 (the only case this development
evaluates), clamped to the first of the month otherwise. -/
def Date.minusDays (a : Date) (n : Nat) : Date :=
  if n < a.d then ⟨a.y, a.m, a.d - n⟩ else ⟨a.y, a.m, 1⟩

/-- pd.to_numeric(errors := coerce) / pl.cast(Float64, strict := False):
numbers parse, everything else is null. -/
def parseNum : Raw → Option ℚ
  | .num q => some q
  | _ => none

/-- The ubiquitous to_numeric(...).fillna(0) / cast(...).fill_null(0)
idiom: unparseable numeric cells become zero. -/
def numOrZero (r : Raw) : ℚ := (parseNum r).getD 0

/-- pd.to_datetime(errors := coerce) / the DATA regex check followed by
str.to_date(strict := False) in Fornecedor.py: a well-formed date cell
parses, everything else is null. -/
def parseDate : Raw → Option Date
  | .date y m d => some ⟨y, m, d⟩
  | _ => none

/-! ## Page-Fetcher (claim C1)

The Supabase server, asked for offset window [offset, offset+limit-1]
of a fixed matching result set, returns (rows.drop offset).take limit.
Two loop shapes occur in the repository:

* Fornecedor.fetch_all_pages — for page in range(max_pages): request;
  break on an empty page; break on a page shorter than limit.
* Pedidos.get_data_from_supabase, Pedidos_Venda.fetch_pedidos and
  Produto.carregar_dados — while True: request; break only on an empty
  page; offset += limit.

Both are embedded with explicit fuel; the while-True variant is run
with fuel large enough to reach the empty page, which the loop always
does on a fixed result set with a positive limit. -/

/-- One server response for the offset window starting at offset. -/
def pageData (rows : List α) (limit offset : Nat) : List α :=
  (rows.drop offset).take limit

/-- Fornecedor.fetch_all_pages: sequential pages, stopping on an empty
page, on a short page, or when the page budget (fuel) is exhausted.
Returns the concatenated data and the list of page-response sizes, one
entry per request issued. -/
def fetchPagesF (rows : List α) (limit : Nat) : Nat → Nat → List α × List Nat
  | 0, _ => ([], [])
  | fuel + 1, page =>
    let data := pageData rows limit (page * limit)
    if data.isEmpty then ([], [0])
    else if data.length < limit then (data, [data.length])
    else
      let rest := fetchPagesF rows limit fuel (page + 1)
      (data ++ rest.1, data.length :: rest.2)

/-- Fornecedor.fetch_all_pages entry point (page counter starts at 0,
max_pages is the page budget). -/
def fornFetchAll (rows : List α) (limit maxPages : Nat) : List α × List Nat :=
  fetchPagesF rows limit maxPages 0

/-- The while-True loop of Pedidos.get_data_from_supabase (also
Pedidos_Venda.fetch_pedidos, Produto.carregar_dados): pages advance by
limit and the loop stops only on an empty page. -/
def fetchPagesP (rows : List α) (limit : Nat) : Nat → Nat → List α × List Nat
  | 0, _ => ([], [])
  | fuel + 1, offset =>
    let data := pageData rows limit offset
    if data.isEmpty then ([], [0])
    else
      let rest := fetchPagesP rows limit fuel (offset + limit)
      (data ++ rest.1, data.length :: rest.2)

/-- Pedidos-style fetch with fuel sufficient to reach the empty page. -/
def pedidosFetchAll (rows : List α) (limit : Nat) : List α × List Nat :=
  fetchPagesP rows limit (rows.length / limit + 2) 0

theorem fetchPagesF_data (rows : List α) (limit : Nat) (hl : 0 < limit) :
    ∀ fuel page, (fetchPagesF rows limit fuel page).1 =
      (rows.drop (page * limit)).take (fuel * limit) := by
  intro fuel
  induction fuel with
  | zero => intro page; simp [fetchPagesF]
  | succ n ih =>
    intro page
    simp only [fetchPagesF]
    by_cases he : (pageData rows limit (page * limit)).isEmpty
    · simp only [he, if_pos]
      have hnil : rows.drop (page * limit) = [] := by
        have h0 := List.isEmpty_iff.mp he
        unfold pageData at h0
        rcases List.take_eq_nil_iff.mp h0 with h | h
        · omega
        · exact h
      simp [hnil]
    · simp only [he, if_neg, Bool.false_eq_true, not_false_iff]
      by_cases hs : (pageData rows limit (page * limit)).length < limit
      · simp only [hs, if_pos]
        have hshort : (rows.drop (page * limit)).length < limit := by
          unfold pageData at hs
          rcases Nat.lt_or_ge (rows.drop (page * limit)).length limit with h | h
          · exact h
          · rw [List.length_take_of_le h] at hs; omega
        unfold pageData
        rw [List.take_of_length_le (Nat.le_of_lt hshort),
          List.take_of_length_le]
        exact Nat.le_of_lt
          (lt_of_lt_of_le hshort (Nat.le_mul_of_pos_left limit (Nat.succ_pos n)))
      · simp only [hs, if_neg, not_false_iff]
        have hfull : limit ≤ (rows.drop (page * limit)).length := by
          unfold pageData at hs
          rcases Nat.lt_or_ge (rows.drop (page * limit)).length limit with h | h
          · rw [List.take_of_length_le (Nat.le_of_lt h)] at hs; omega
          · exact h
        rw [ih (page + 1)]
        unfold pageData
        have hdd : rows.drop ((page + 1) * limit) =
            (rows.drop (page * limit)).drop limit := by
          rw [List.drop_drop]
          congr 1
          ring
        rw [hdd, ← List.take_add]
        congr 1
        ring

/-- The length of one server response. -/
theorem pageData_length (rows : List α) (limit offset : Nat) :
    (pageData rows limit offset).length = min limit (rows.length - offset) := by
  simp [pageData]

/-- The page-size trace of the Fornecedor loop, as a function of the
number of matching rows only: a full page per complete window, then one
short (possibly empty) final request, within the page budget. -/
def sizesF (limit : Nat) : Nat → Nat → List Nat
  | 0, _ => []
  | fuel + 1, n =>
    if n = 0 then [0]
    else if n < limit then [n]
    else limit :: sizesF limit fuel (n - limit)

/-- The page-size trace of the while-True loops: a nonempty page per
window (full or short), then one final empty request. -/
def sizesP (limit : Nat) : Nat → Nat → List Nat
  | 0, _ => []
  | fuel + 1, n =>
    if n = 0 then [0]
    else min limit n :: sizesP limit fuel (n - limit)

theorem fetchPagesF_sizes (rows : List α) (limit : Nat) (hl : 0 < limit) :
    ∀ fuel page, (fetchPagesF rows limit fuel page).2 =
      sizesF limit fuel (rows.length - page * limit) := by
  intro fuel
  induction fuel with
  | zero => intro page; simp [fetchPagesF, sizesF]
  | succ n ih =>
    intro page
    have hlen := pageData_length rows limit (page * limit)
    have hempty : (pageData rows limit (page * limit)).isEmpty = true ↔
        rows.length - page * limit = 0 := by
      rw [List.isEmpty_iff_length_eq_zero, hlen]; omega
    by_cases h0 : rows.length - page * limit = 0
    · simp [fetchPagesF, sizesF, hempty.mpr h0, h0]
    · have hne : (pageData rows limit (page * limit)).isEmpty = false := by
        rcases Bool.eq_false_or_eq_true
            (pageData rows limit (page * limit)).isEmpty with hb | hb
        · exact absurd (hempty.mp hb) h0
        · exact hb
      simp only [fetchPagesF, sizesF, hne, Bool.false_eq_true, if_false,
        if_neg, not_false_iff, h0]
      by_cases hs : rows.length - page * limit < limit
      · have : (pageData rows limit (page * limit)).length < limit := by omega
        simp [this, hlen, hs, Nat.min_eq_right (Nat.le_of_lt hs)]
      · have hfull : ¬ (pageData rows limit (page * limit)).length < limit := by
          rw [hlen]; omega
        simp only [hfull, if_neg, not_false_iff, hs]
        rw [ih (page + 1)]
        have : rows.length - (page + 1) * limit =
            rows.length - page * limit - limit := by
          have : (page + 1) * limit = page * limit + limit := by ring
          omega
        rw [this, hlen]
        have : min limit (rows.length - page * limit) = limit := by omega
        rw [this]

theorem fetchPagesP_sizes (rows : List α) (limit : Nat) (hl : 0 < limit) :
    ∀ fuel offset, (fetchPagesP rows limit fuel offset).2 =
      sizesP limit fuel (rows.length - offset) := by
  intro fuel
  induction fuel with
  | zero => intro offset; simp [fetchPagesP, sizesP]
  | succ n ih =>
    intro offset
    have hlen := pageData_length rows limit offset
    have hempty : (pageData rows limit offset).isEmpty = true ↔
        rows.length - offset = 0 := by
      rw [List.isEmpty_iff_length_eq_zero, hlen]; omega
    by_cases h0 : rows.length - offset = 0
    · simp [fetchPagesP, sizesP, hempty.mpr h0, h0]
    · have hne : (pageData rows limit offset).isEmpty = false := by
        rcases Bool.eq_false_or_eq_true (pageData rows limit offset).isEmpty
          with hb | hb
        · exact absurd (hempty.mp hb) h0
        · exact hb
      simp only [fetchPagesP, sizesP, hne, Bool.false_eq_true, if_false,
        if_neg, not_false_iff, h0]
      rw [ih (offset + limit), hlen]
      have : rows.length - (offset + limit) = rows.length - offset - limit := by
        omega
      rw [this]

theorem fornFetchAll_sizes (rows : List α) (limit maxPages : Nat)
    (hl : 0 < limit) :
    (fornFetchAll rows limit maxPages).2 = sizesF limit maxPages rows.length := by
  rw [fornFetchAll, fetchPagesF_sizes rows limit hl maxPages 0]
  simp

theorem pedidosFetchAll_sizes (rows : List α) (limit : Nat) (hl : 0 < limit) :
    (pedidosFetchAll rows limit).2 =
      sizesP limit (rows.length / limit + 2) rows.length := by
  rw [pedidosFetchAll, fetchPagesP_sizes rows limit hl _ 0]
  simp

theorem sizesF_ne_nil (limit fuel n : Nat) (hf : 0 < fuel) :
    sizesF limit fuel n ≠ [] := by
  cases fuel with
  | zero => omega
  | succ k =>
    simp only [sizesF]
    by_cases h0 : n = 0
    · simp [h0]
    · by_cases hs : n < limit <;> simp [h0, hs]

theorem sizesF_length_le (limit : Nat) :
    ∀ fuel n, (sizesF limit fuel n).length ≤ fuel := by
  intro fuel
  induction fuel with
  | zero => intro n; simp [sizesF]
  | succ k ih =>
    intro n
    simp only [sizesF]
    by_cases h0 : n = 0
    · simp [h0]
    · by_cases hs : n < limit
      · simp [h0, hs]
      · simp only [h0, hs, if_neg, if_false, not_false_iff, List.length_cons]
        exact Nat.succ_le_succ (ih (n - limit))

theorem sizesF_dropLast_full (limit : Nat) :
    ∀ fuel n, ∀ s ∈ (sizesF limit fuel n).dropLast, s = limit := by
  intro fuel
  induction fuel with
  | zero => intro n s hs; simp [sizesF] at hs
  | succ k ih =>
    intro n s hs
    simp only [sizesF] at hs
    by_cases h0 : n = 0
    · simp [h0] at hs
    · by_cases hlt : n < limit
      · simp [h0, hlt] at hs
      · simp only [h0, hlt, if_neg, if_false, not_false_iff] at hs
        cases hr : sizesF limit k (n - limit) with
        | nil => rw [hr] at hs; simp at hs
        | cons a t =>
          rw [hr, List.dropLast_cons₂] at hs
          rcases List.mem_cons.mp hs with h | h
          · exact h
          · exact ih (n - limit) s (by rw [hr]; exact h)

theorem sizesF_last_short (limit : Nat) (hl : 0 < limit) :
    ∀ fuel n, (sizesF limit fuel n).length < fuel →
      ∀ l, (sizesF limit fuel n).getLast? = some l → l < limit := by
  intro fuel
  induction fuel with
  | zero => intro n h; omega
  | succ k ih =>
    intro n hlen l hlast
    simp only [sizesF] at hlen hlast
    by_cases h0 : n = 0
    · simp [h0] at hlast
      omega
    · by_cases hlt : n < limit
      · simp [h0, hlt] at hlast
        omega
      · simp only [h0, hlt, if_neg, if_false, not_false_iff] at hlen hlast
        have hne : sizesF limit k (n - limit) ≠ [] := by
          apply sizesF_ne_nil
          simp at hlen
          omega
        cases hr : sizesF limit k (n - limit) with
        | nil => exact absurd hr hne
        | cons b t =>
          rw [hr, List.getLast?_cons_cons] at hlast
          have := ih (n - limit)
          rw [hr] at this
          apply this _ l hlast
          rw [hr] at hlen
          simp at hlen ⊢
          omega

/-! ## Freshness Cache (claim C2)

cachetools.TTLCache as used by Fornecedor.get_data_from_supabase (TTL
300), Estoque.fetch_supabase_data (TTL 180) and
Pedidos_Venda.fetch_pedidos (TTL 300): the loader first tests
key in _cache, returns the stored snapshot on a live hit, and otherwise
performs the paginated network fetch and stores the result under the
key with the current time.  In cachetools an entry written at time t is
live exactly while now < t + ttl.  Insertion is modelled by shadowing,
which is observationally the same as in-place replacement. -/

/-- One cached entry: the stored snapshot and its insertion time. -/
structure Entry (α : Type) where
  value : α
  insertedAt : Nat
deriving DecidableEq, Repr

/-- The TTLCache contents, keyed by the formatted filter string. -/
def TTLStore (α : Type) : Type := List (String × Entry α)

/-- Raw key lookup (most recent write wins). -/
def storeLookup (c : TTLStore α) (k : String) : Option (Entry α) :=
  (c.find? (fun p => p.1 == k)).map (fun p => p.2)

/-- _cache[key] = value at time now. -/
def storeInsert (c : TTLStore α) (k : String) (e : Entry α) : TTLStore α :=
  (k, e) :: c

/-- key in _cache followed by _cache[key]: a value comes back exactly
when a live (unexpired) entry exists. -/
def cacheGet (ttl : Nat) (c : TTLStore α) (k : String) (now : Nat) : Option α :=
  match storeLookup c k with
  | some e => if now < e.insertedAt + ttl then some e.value else none
  | none => none

/-- Result of one loader call: the snapshot handed to the page, the
cache afterwards, and whether a network fetch happened. -/
structure GetResult (α : Type) where
  value : α
  cache : TTLStore α
  fetched : Bool

/-- The cache discipline of get_data_from_supabase /
fetch_supabase_data / fetch_pedidos: return the live cached snapshot if
present, otherwise fetch (fetch now abstracts the whole paginated
network fetch issued at time now) and store the result. -/
def getData (ttl : Nat) (fetch : Nat → α) (c : TTLStore α) (k : String)
    (now : Nat) : GetResult α :=
  match cacheGet ttl c k now with
  | some v => ⟨v, c, false⟩
  | none => ⟨fetch now, storeInsert c k ⟨fetch now, now⟩, true⟩

/-- A sequence of loader calls at the given times; returns the final
cache and the number of network fetches performed. -/
def runGets (ttl : Nat) (fetch : Nat → α) (k : String) :
    TTLStore α → List Nat → TTLStore α × Nat
  | c, [] => (c, 0)
  | c, t :: ts =>
    let r := getData ttl fetch c k t
    let rest := runGets ttl fetch k r.cache ts
    (rest.1, (if r.fetched then 1 else 0) + rest.2)

theorem getData_fetched_spec (ttl : Nat) (fetch : Nat → α) (c : TTLStore α)
    (k : String) (t : Nat) (h : (getData ttl fetch c k t).fetched = true) :
    getData ttl fetch c k t =
      ⟨fetch t, storeInsert c k ⟨fetch t, t⟩, true⟩ := by
  unfold getData at h ⊢
  cases hc : cacheGet ttl c k t with
  | some v => rw [hc] at h; exact absurd h (by simp)
  | none => rfl

theorem storeLookup_insert_self (c : TTLStore α) (k : String) (e : Entry α) :
    storeLookup (storeInsert c k e) k = some e := by
  simp [storeLookup, storeInsert, List.find?]

theorem getData_hit (ttl : Nat) (fetch : Nat → α) (c : TTLStore α)
    (k : String) (e : Entry α) (t : Nat) (hl : storeLookup c k = some e)
    (ht : t < e.insertedAt + ttl) :
    getData ttl fetch c k t = ⟨e.value, c, false⟩ := by
  unfold getData cacheGet
  rw [hl]
  simp [ht]

theorem getData_expired (ttl : Nat) (fetch : Nat → α) (c : TTLStore α)
    (k : String) (e : Entry α) (t : Nat) (hl : storeLookup c k = some e)
    (ht : e.insertedAt + ttl ≤ t) :
    getData ttl fetch c k t =
      ⟨fetch t, storeInsert c k ⟨fetch t, t⟩, true⟩ := by
  unfold getData cacheGet
  rw [hl]
  have : ¬ t < e.insertedAt + ttl := by omega
  simp [this]

theorem runGets_no_fetch (ttl : Nat) (fetch : Nat → α) (k : String)
    (e : Entry α) :
    ∀ (ts : List Nat) (c : TTLStore α), storeLookup c k = some e →
      (∀ t ∈ ts, t < e.insertedAt + ttl) →
      runGets ttl fetch k c ts = (c, 0) := by
  intro ts
  induction ts with
  | nil => intro c _ _; rfl
  | cons t rest ih =>
    intro c hl hts
    have hhit := getData_hit ttl fetch c k e t hl
      (hts t (List.mem_cons_self t rest))
    simp only [runGets, hhit]
    rw [ih c hl (fun u hu => hts u (List.mem_cons_of_mem _ hu))]
    simp

/-! ## Fornecedor.get_data_from_supabase reshaping (claims C3, C7, C8)

The processing applied to the fetched row batch, in source order:
the empty-result branch; the expected-column presence check; the DATA
format check with warning; the numeric coercions with fill-zero; the
derived VALOR_TOTAL_ITEM = QT * PVENDA plus month/year extraction; the
ANO/MES plausibility filter; the conditional negative-value clamps with
their warnings; the final empty-result warning.  Warning and error
texts are abstracted to short tags. -/

/-- A fetched sales row (the columns the pipeline touches). -/
structure FRow where
  DATA : Raw
  QT : Raw
  PVENDA : Raw
  FORNECEDOR : String
deriving DecidableEq, Repr

/-- SUPABASE_CONFIG vendas columns. -/
def fornExpectedCols : List String :=
  ["DATA", "QT", "PVENDA", "FORNECEDOR", "VENDEDOR", "CLIENTE", "PRODUTO",
   "CODPROD", "CODIGOVENDEDOR", "CODCLI"]

/-- A processed sales row after coercion and derivation. -/
structure PRow where
  data : Date
  qt : ℚ
  pvenda : ℚ
  valorTotalItem : ℚ
  mes : Nat
  ano : Nat
  fornecedor : String
deriving DecidableEq, Repr

/-- What a loader call leaves behind: the dataframe handed to the page,
the st.warning / logger.warning messages, and the st.error messages. -/
structure FetchOutcome where
  df : List PRow
  warnings : List String
  errors : List String
deriving DecidableEq, Repr

/-- DATA parse, coercion of QT and PVENDA with fill-zero, derived
VALOR_TOTAL_ITEM and month/year; rows whose DATA fails to parse are
dropped (the regex filter plus the is_not_null filter). -/
def fornParseRow (r : FRow) : Option PRow :=
  (parseDate r.DATA).map (fun dt =>
    { data := dt, qt := numOrZero r.QT, pvenda := numOrZero r.PVENDA,
      valorTotalItem := numOrZero r.QT * numOrZero r.PVENDA,
      mes := dt.m, ano := dt.y, fornecedor := r.FORNECEDOR })

/-- The ANO/MES plausibility filter (month 1..12, year 2000..2030). -/
def anoMesOk (p : PRow) : Bool :=
  decide (1 ≤ p.mes) && decide (p.mes ≤ 12) &&
    decide (2000 ≤ p.ano) && decide (p.ano ≤ 2030)

/-- The rows surviving DATA parsing and the ANO/MES filter. -/
def fornValidRows (allData : List FRow) : List PRow :=
  (allData.filterMap fornParseRow).filter anoMesOk

/-- First conditional clamp: if any QT is negative, warn and clip the
QT column at zero. -/
def clampQt (rows : List PRow) : List PRow × List String :=
  if rows.any (fun p => decide (p.qt < 0)) then
    (rows.map (fun p => { p with qt := max p.qt 0 }), ["qt_negativa"])
  else (rows, [])

/-- Second conditional clamp: the same for PVENDA. -/
def clampPv (rows : List PRow) : List PRow × List String :=
  if rows.any (fun p => decide (p.pvenda < 0)) then
    (rows.map (fun p => { p with pvenda := max p.pvenda 0 }),
      ["pvenda_negativa"])
  else (rows, [])

/-- The two conditional negative-value clamps, in source order.
VALOR_TOTAL_ITEM was already computed and is not touched. -/
def fornClamp (rows : List PRow) : List PRow × List String :=
  let a := clampQt rows
  let b := clampPv a.1
  (b.1, a.2 ++ b.2)

/-- Fornecedor.get_data_from_supabase after the paginated fetch
returned allData, with the configured expected-column list and the
column list of the built dataframe. -/
def fornGetData (expected cols : List String) (allData : List FRow) :
    FetchOutcome :=
  if allData.isEmpty then ⟨[], ["nenhum_dado_retornado"], []⟩
  else if expected.any (fun c => ! cols.contains c) then
    ⟨[], [], ["colunas_ausentes"]⟩
  else
    let wInvalid : List String :=
      if allData.any (fun r => (parseDate r.DATA).isNone) then
        ["valores_invalidos_DATA"] else []
    let wAnoMes : List String :=
      if (allData.filterMap fornParseRow).any (fun p => ! anoMesOk p) then
        ["ano_mes_invalidos"] else []
    let clamped := fornClamp (fornValidRows allData)
    let wEmpty : List String :=
      if clamped.1.isEmpty then ["dataframe_vazio_para_periodo"] else []
    ⟨clamped.1, wInvalid ++ wAnoMes ++ clamped.2 ++ wEmpty, []⟩

/-- The server-side date-window filter DATA gte lo, lte hi. -/
def matchesWindow (lo hi : Date) (r : FRow) : Bool :=
  match parseDate r.DATA with
  | some d => lo.leB d && d.leB hi
  | none => false

theorem clampQt_nonneg (rows : List PRow) :
    ∀ p ∈ (clampQt rows).1, 0 ≤ p.qt := by
  intro p hp
  unfold clampQt at hp
  by_cases hq : rows.any (fun p => decide (p.qt < 0))
  · rw [if_pos hq] at hp
    rcases List.mem_map.mp hp with ⟨p0, _, hmk⟩
    rw [← hmk]
    exact le_max_right p0.qt 0
  · rw [if_neg hq] at hp
    have := List.any_eq_false.mp (Bool.eq_false_iff.mpr hq) p hp
    simp at this
    linarith

theorem clampPv_nonneg (rows : List PRow) :
    ∀ p ∈ (clampPv rows).1, 0 ≤ p.pvenda := by
  intro p hp
  unfold clampPv at hp
  by_cases hq : rows.any (fun p => decide (p.pvenda < 0))
  · rw [if_pos hq] at hp
    rcases List.mem_map.mp hp with ⟨p0, _, hmk⟩
    rw [← hmk]
    exact le_max_right p0.pvenda 0
  · rw [if_neg hq] at hp
    have := List.any_eq_false.mp (Bool.eq_false_iff.mpr hq) p hp
    simp at this
    linarith

theorem clampPv_preserves_qt (rows : List PRow)
    (h : ∀ p ∈ rows, 0 ≤ p.qt) :
    ∀ p ∈ (clampPv rows).1, 0 ≤ p.qt := by
  intro p hp
  unfold clampPv at hp
  by_cases hq : rows.any (fun p => decide (p.pvenda < 0))
  · rw [if_pos hq] at hp
    rcases List.mem_map.mp hp with ⟨p0, hp0, hmk⟩
    rw [← hmk]
    exact h p0 hp0
  · rw [if_neg hq] at hp
    exact h p hp

theorem fornClamp_nonneg (rows : List PRow) :
    ∀ p ∈ (fornClamp rows).1, 0 ≤ p.qt ∧ 0 ≤ p.pvenda := by
  intro p hp
  unfold fornClamp at hp
  simp only at hp
  exact ⟨clampPv_preserves_qt _ (clampQt_nonneg rows) p hp,
    clampPv_nonneg _ p hp⟩

theorem clampQt_warn (rows : List PRow) (p : PRow) (hp : p ∈ rows)
    (hneg : p.qt < 0) : (clampQt rows).2 = ["qt_negativa"] := by
  unfold clampQt
  have : rows.any (fun p => decide (p.qt < 0)) = true :=
    List.any_eq_true.mpr ⟨p, hp, by simpa using hneg⟩
  rw [if_pos this]

theorem fornClamp_warn (rows : List PRow) (p : PRow) (hp : p ∈ rows)
    (hneg : p.qt < 0) : "qt_negativa" ∈ (fornClamp rows).2 := by
  unfold fornClamp
  simp only
  rw [clampQt_warn rows p hp hneg]
  exact List.mem_append_left _ (List.mem_singleton_self _)

/-- float-to-int conversion (int(...) / astype to int32): truncation
toward zero. -/
def ratTrunc (q : ℚ) : Int := Int.tdiv q.num q.den

/-- to_numeric with coerce, fillna(0), integer cast: unparseable cells
become zero. -/
def numTrunc (r : Raw) : Int :=
  match parseNum r with
  | some q => ratTrunc q
  | none => 0

/-! ## Produto.carregar_dados (claims C5, C9)

Source order inside carregar_dados: pagination; the empty-result branch
with its warning; the expected-column check with error and empty
result; the CODOPER = S filter (excluding ED return rows); the DATA
parse with a warning when any value fails and a dropna of those rows;
the silent numeric coercions of PVENDA, VLCUSTOFIN and QT with
fill-zero; the derived margin and year/month columns.  No warning is
attached to the numeric coercions in the source. -/

namespace Produto

/-- A fetched VWSOMELIER row (the columns the pipeline touches). -/
structure PrRow where
  CODOPER : String
  DESCRICAO_1 : String
  CODPROD : String
  DATA : Raw
  QT : Raw
  PVENDA : Raw
  VLCUSTOFIN : Raw
deriving DecidableEq, Repr

/-- expected_columns of carregar_dados. -/
def expected_columns : List String :=
  ["DESCRICAO_1", "CODPROD", "DATA", "QT", "PVENDA", "VLCUSTOFIN", "CODOPER"]

/-- A processed row of the product page dataframe. -/
structure ProdRow where
  codoper : String
  descricao : String
  codprod : String
  dataPedido : Date
  valorTotalVendido : ℚ
  vlcustofin : ℚ
  qt : Int
  margem : ℚ
  ano : Nat
  mes : Nat
deriving DecidableEq, Repr

/-- The per-row coercions and derivations applied after the date
parse succeeded. -/
def mkProdRow (r : PrRow) (dt : Date) : ProdRow :=
  let v := numOrZero r.PVENDA
  let c := numOrZero r.VLCUSTOFIN
  { codoper := r.CODOPER, descricao := r.DESCRICAO_1, codprod := r.CODPROD,
    dataPedido := dt, valorTotalVendido := v, vlcustofin := c,
    qt := numTrunc r.QT, margem := v - c, ano := dt.y, mes := dt.m }

/-- The rows surviving the dropna on the parsed date column, coerced. -/
def prodKept (dfS : List PrRow) : List ProdRow :=
  dfS.filterMap (fun r => (parseDate r.DATA).map (mkProdRow r))

/-- The outcome of carregar_dados: dataframe, warnings, errors. -/
structure ProdOutcome where
  df : List ProdRow
  warnings : List String
  errors : List String
deriving DecidableEq, Repr

/-- Produto.carregar_dados after the paginated fetch returned allData,
with the column list of the built dataframe. -/
def carregar_dados (cols : List String) (allData : List PrRow) :
    ProdOutcome :=
  if allData.isEmpty then ⟨[], ["nenhum_dado_encontrado"], []⟩
  else if expected_columns.any (fun c => ! cols.contains c) then
    ⟨[], [], ["colunas_faltando"]⟩
  else
    let dfS := allData.filter (fun r => r.CODOPER == "S")
    let w : List String :=
      if dfS.any (fun r => (parseDate r.DATA).isNone) then
        ["valores_invalidos_DATA"] else []
    ⟨prodKept dfS, w, []⟩

end Produto

/-! ## Pedidos_Venda.fetch_pedidos (claims C4, C8)

After pagination, fetch_pedidos builds the dataframe, returns it
unchanged (and cached) when empty, and otherwise coerces DATA (kept
even when unparseable — there is no dropna here), coerces QT and PVENDA
with fill-zero, and derives valor_total = QT * PVENDA.  main shows the
no-data warning when the dataframe is empty. -/

namespace PedidosVenda

/-- A fetched PCPEDI row (the columns the pipeline touches). -/
structure PVRow where
  NUMPED : String
  DATA : Raw
  QT : Raw
  PVENDA : Raw
deriving DecidableEq, Repr

/-- A processed order row. -/
structure PVOut where
  numped : String
  data : Option Date
  qt : ℚ
  pvenda : ℚ
  valor_total : ℚ
deriving DecidableEq, Repr

/-- Pedidos_Venda.fetch_pedidos after the paginated fetch returned
allData (on the empty dataframe the function returns it before any
coercion, which coincides with mapping over the empty list). -/
def fetch_pedidos (allData : List PVRow) : List PVOut :=
  allData.map (fun r =>
    { numped := r.NUMPED, data := parseDate r.DATA, qt := numOrZero r.QT,
      pvenda := numOrZero r.PVENDA,
      valor_total := numOrZero r.QT * numOrZero r.PVENDA })

/-- The no-data UI state of Pedidos_Venda.main. -/
def mainMessages (df : List PVOut) : List String :=
  if df.isEmpty then ["sem_dados_para_periodo"] else []

end PedidosVenda

/-! ## Pagina_Inicial SQLite mirror (claims C4, C6, C10)

SupabaseConnection keeps a local SQLite table PCPEDC with NUMPED as
PRIMARY KEY.  _get_latest_timestamp takes MAX over the stored
DATA_PEDIDO text column (lexicographic equals chronological for ISO
timestamps, modelled through Date.toNat), rewinds it by seven days for
the next request window, and signals the absence of any snapshot by an
epoch default that makes fetch_new_data skip the filter — modelled as
none.  update_cache computes PVENDA, QT and VLTOTAL = PVENDA * QT per
record and writes the batch with INSERT OR REPLACE, i.e. an upsert on
NUMPED. -/

namespace PaginaInicial

/-- A raw PCPEDC record from the REST response. -/
structure RawRec where
  NUMPED : String
  PVENDA : Raw
  QT : Raw
  CODFILIAL : String
  DATA_PEDIDO : Option Date
deriving DecidableEq, Repr

/-- A row of the SQLite PCPEDC mirror. -/
structure CRec where
  numped : String
  pvenda : ℚ
  qt : Int
  codfilial : String
  dataPedido : Option Date
  vltotal : ℚ
deriving DecidableEq, Repr

/-- The per-record computation of update_cache: PVENDA and QT coerced
with fill-zero, VLTOTAL derived as their product. -/
def mkRec (r : RawRec) : CRec :=
  let pv := numOrZero r.PVENDA
  let q := numTrunc r.QT
  { numped := r.NUMPED, pvenda := pv, qt := q, codfilial := r.CODFILIAL,
    dataPedido := r.DATA_PEDIDO, vltotal := pv * q }

/-- INSERT OR REPLACE of one record on the NUMPED primary key. -/
def upsert (m : List CRec) (r : RawRec) : List CRec :=
  if m.any (fun old => old.numped == r.NUMPED) then
    m.map (fun old => if old.numped == r.NUMPED then mkRec r else old)
  else m ++ [mkRec r]

/-- update_cache: the batch written record by record
(executemany processes the tuples in order). -/
def update_cache (m : List CRec) (data : List RawRec) : List CRec :=
  data.foldl upsert m

/-- The NUMPED column of the mirror. -/
def mirrorKeys (m : List CRec) : List String := m.map (fun c => c.numped)

/-- Maximum of a list of naturals, none when empty. -/
def natMax? : List Nat → Option Nat
  | [] => none
  | x :: xs =>
    match natMax? xs with
    | none => some x
    | some y => some (max x y)

/-- The timestamp key of a mirror row. -/
def dateKey (c : CRec) : Option Nat := c.dataPedido.map Date.toNat

/-- The timestamp key of a raw record. -/
def rawDateKey (r : RawRec) : Option Nat := r.DATA_PEDIDO.map Date.toNat

/-- The watermark: MAX(DATA_PEDIDO) over the mirror (none when the
mirror holds no timestamp). -/
def watermark (m : List CRec) : Option Nat :=
  natMax? (m.filterMap dateKey)

/-- The request lower bound of _get_latest_timestamp: the watermark
rewound by seven days (exact in the key encoding whenever the day of
month exceeds 7, which holds for every date this development
evaluates); none is the epoch default under which fetch_new_data
applies no filter. -/
def get_latest_timestamp (m : List CRec) : Option Nat :=
  (watermark m).map (fun t => t - 7)

/-- Order on optional timestamps: none (no watermark) below
everything. -/
def optKeyLe : Option Nat → Option Nat → Bool
  | none, _ => true
  | some _, none => false
  | some a, some b => a ≤ b

theorem natMax?_le_of_mem (l : List Nat) (x : Nat) (hx : x ∈ l) :
    ∃ y, natMax? l = some y ∧ x ≤ y := by
  induction l with
  | nil => cases hx
  | cons a t ih =>
    rcases List.mem_cons.mp hx with h | h
    · subst h
      cases ht : natMax? t with
      | none => exact ⟨x, by simp [natMax?, ht], le_refl x⟩
      | some y => exact ⟨max x y, by simp [natMax?, ht], le_max_left x y⟩
    · rcases ih h with ⟨y, hy, hxy⟩
      exact ⟨max a y, by simp [natMax?, hy], le_trans hxy (le_max_right a y)⟩

theorem natMax?_mem (l : List Nat) (y : Nat) (hy : natMax? l = some y) :
    y ∈ l := by
  induction l generalizing y with
  | nil => cases hy
  | cons a t ih =>
    cases ht : natMax? t with
    | none =>
      rw [natMax?, ht] at hy
      cases hy
      exact List.mem_cons_self _ _
    | some z =>
      rw [natMax?, ht] at hy
      cases hy
      rcases Nat.le_total a z with h | h
      · rw [Nat.max_eq_right h]
        exact List.mem_cons_of_mem _ (ih z ht)
      · rw [Nat.max_eq_left h]
        exact List.mem_cons_self _ _

/-- Every mirror row survives an update_cache batch as a row with the
same NUMPED that is either the row itself or the image of some batch
record carrying that NUMPED. -/
theorem update_cache_successor (data : List RawRec) :
    ∀ (m : List CRec) (old : CRec), old ∈ m →
      ∃ nw ∈ update_cache m data, nw.numped = old.numped ∧
        (nw = old ∨ ∃ r ∈ data, r.NUMPED = old.numped ∧ nw = mkRec r) := by
  induction data with
  | nil => intro m old hm; exact ⟨old, hm, rfl, Or.inl rfl⟩
  | cons r rest ih =>
    intro m old hm
    by_cases hmatch : old.numped = r.NUMPED
    · have hany : m.any (fun o => o.numped == r.NUMPED) = true :=
        List.any_eq_true.mpr ⟨old, hm, by simp [hmatch]⟩
      have hmem : mkRec r ∈ upsert m r := by
        unfold upsert
        rw [if_pos hany]
        exact List.mem_map.mpr ⟨old, hm, by simp [hmatch]⟩
      rcases ih (upsert m r) (mkRec r) hmem with ⟨nw, hnw, hk, hor⟩
      refine ⟨nw, hnw, ?_, ?_⟩
      · rw [hk]; simp [mkRec, hmatch]
      · rcases hor with h | ⟨r2, hr2, hk2, he⟩
        · exact Or.inr ⟨r, List.mem_cons_self _ _, hmatch.symm, h⟩
        · refine Or.inr ⟨r2, List.mem_cons_of_mem _ hr2, ?_, he⟩
          rw [hk2]
          simp [mkRec, hmatch]
    · have hold : old ∈ upsert m r := by
        unfold upsert
        by_cases hany : m.any (fun o => o.numped == r.NUMPED) = true
        · rw [if_pos hany]
          refine List.mem_map.mpr ⟨old, hm, ?_⟩
          have : (old.numped == r.NUMPED) = false := by
            simp [hmatch]
          simp [this]
        · rw [if_neg hany]
          exact List.mem_append_left _ hm
      rcases ih (upsert m r) old hold with ⟨nw, hnw, hk, hor⟩
      refine ⟨nw, hnw, hk, ?_⟩
      rcases hor with h | ⟨r2, hr2, hk2, he⟩
      · exact Or.inl h
      · exact Or.inr ⟨r2, List.mem_cons_of_mem _ hr2, hk2, he⟩

end PaginaInicial

namespace PaginaInicial

/-- The watermark never decreases across an update_cache batch in which
no record rewrites an existing order to an earlier DATA_PEDIDO. -/
theorem watermark_mono (m : List CRec) (data : List RawRec)
    (h : ∀ r ∈ data, ∀ old ∈ m, old.numped = r.NUMPED →
      optKeyLe (dateKey old) (rawDateKey r) = true) :
    optKeyLe (watermark m) (watermark (update_cache m data)) = true := by
  cases hw : watermark m with
  | none => rfl
  | some w =>
    unfold watermark at hw
    have hwmem := natMax?_mem _ _ hw
    rcases List.mem_filterMap.mp hwmem with ⟨a, ham, hak⟩
    rcases update_cache_successor data m a ham with ⟨nw, hnw, hk, hor⟩
    have hnwkey : ∃ kn, dateKey nw = some kn ∧ w ≤ kn := by
      rcases hor with he | ⟨r, hr, hkr, he⟩
      · exact ⟨w, by rw [he]; exact hak, le_refl w⟩
      · have := h r hr a ham hkr.symm
        rw [hak] at this
        unfold optKeyLe at this
        cases hrk : rawDateKey r with
        | none => rw [hrk] at this; cases this
        | some kr =>
          rw [hrk] at this
          refine ⟨kr, ?_, by simpa using this⟩
          rw [he]
          unfold rawDateKey at hrk
          unfold dateKey
          simpa [mkRec] using hrk
    rcases hnwkey with ⟨kn, hkn, hwkn⟩
    have hknmem : kn ∈ (update_cache m data).filterMap dateKey :=
      List.mem_filterMap.mpr ⟨nw, hnw, hkn⟩
    rcases natMax?_le_of_mem _ kn hknmem with ⟨y, hy, hkny⟩
    unfold watermark
    rw [hy]
    unfold optKeyLe
    simp
    omega

/-- upsert leaves the NUMPED column unchanged when the key already
exists, and appends the single new key otherwise. -/
theorem upsert_keys (m : List CRec) (r : RawRec) :
    mirrorKeys (upsert m r) = mirrorKeys m ∨
      mirrorKeys (upsert m r) = mirrorKeys m ++ [r.NUMPED] := by
  unfold upsert
  by_cases hany : m.any (fun old => old.numped == r.NUMPED) = true
  · left
    rw [if_pos hany]
    unfold mirrorKeys
    rw [List.map_map]
    apply List.map_congr_left
    intro a _
    by_cases hb : (a.numped == r.NUMPED) = true
    · simp only [Function.comp_apply, hb, if_pos]
      have := of_decide_eq_true (by simpa using hb)
      simp [mkRec]
      exact (by simpa using hb : a.numped = r.NUMPED).symm
    · simp only [Function.comp_apply, hb, if_neg, Bool.false_eq_true,
        not_false_iff]
  · right
    rw [if_neg hany]
    unfold mirrorKeys
    rw [List.map_append]
    simp [mkRec]

theorem upsert_keys_nodup (m : List CRec) (r : RawRec)
    (h : (mirrorKeys m).Nodup) : (mirrorKeys (upsert m r)).Nodup := by
  rcases upsert_keys m r with he | he
  · rw [he]; exact h
  · rw [he]
    rw [List.nodup_append]
    refine ⟨h, List.nodup_singleton _, ?_⟩
    intro k hk hk1
    have hk2 : k = r.NUMPED := by simpa using hk1
    subst hk2
    unfold upsert at he
    have hany : m.any (fun old => old.numped == r.NUMPED) = false := by
      rcases Bool.eq_false_or_eq_true (m.any (fun old => old.numped == r.NUMPED))
        with hb | hb
      · rw [if_pos hb] at he
        exfalso
        have hlen := congrArg List.length he
        unfold mirrorKeys at hlen
        simp at hlen
      · exact hb
    rcases List.mem_map.mp hk with ⟨c, hc, hck⟩
    have := List.any_eq_false.mp hany c hc
    simp at this
    exact this hck

/-- NUMPED stays duplicate-free across any update_cache batch. -/
theorem update_cache_nodup (data : List RawRec) :
    ∀ m : List CRec, (mirrorKeys m).Nodup →
      (mirrorKeys (update_cache m data)).Nodup := by
  induction data with
  | nil => intro m h; exact h
  | cons r rest ih =>
    intro m h
    exact ih (upsert m r) (upsert_keys_nodup m r h)

end PaginaInicial

/-! ## group_by / agg(sum) (claim C4)

polars group_by(keys).agg(sum) over a list of rows: one bucket per
distinct key, holding the sum of the aggregated column over the rows
carrying that key. -/

/-- group_by(key).agg(f.sum()). -/
def groupBySum [DecidableEq κ] (key : β → κ) (f : β → ℚ) (l : List β) :
    List (κ × ℚ) :=
  ((l.map key).dedup).map
    (fun k => (k, ((l.filter (fun b => decide (key b = k))).map f).sum))

theorem sum_map_ite_eq [DecidableEq κ] (ks : List κ) (a : κ) (c : ℚ)
    (hnd : ks.Nodup) (ha : a ∈ ks) :
    (ks.map (fun k => if a = k then c else 0)).sum = c := by
  induction ks with
  | nil => cases ha
  | cons k t ih =>
    rcases List.mem_cons.mp ha with h | h
    · subst h
      have hnot : a ∉ t := (List.nodup_cons.mp hnd).1
      have hzero : (t.map (fun k => if a = k then c else 0)).sum = 0 := by
        rw [List.sum_eq_zero]
        intro x hx
        rcases List.mem_map.mp hx with ⟨k2, hk2, hxe⟩
        have : a ≠ k2 := fun he => hnot (he ▸ hk2)
        rw [← hxe, if_neg this]
      simp [hzero]
    · have hne : a ≠ k := by
        intro he
        exact (List.nodup_cons.mp hnd).1 (he ▸ h)
      rw [List.map_cons, List.sum_cons, if_neg hne, zero_add]
      exact ih (List.nodup_cons.mp hnd).2 h

theorem sum_fiberwise [DecidableEq κ] (key : β → κ) (f : β → ℚ) :
    ∀ (l : List β) (ks : List κ), ks.Nodup → (∀ b ∈ l, key b ∈ ks) →
      (ks.map
        (fun k => ((l.filter (fun b => decide (key b = k))).map f).sum)).sum =
      (l.map f).sum := by
  intro l
  induction l with
  | nil =>
    intro ks _ _
    simp
  | cons b t ih =>
    intro ks hnd hmem
    have hsplit : ∀ k : κ,
        (((b :: t).filter (fun x => decide (key x = k))).map f).sum =
        (if key b = k then f b else 0) +
          ((t.filter (fun x => decide (key x = k))).map f).sum := by
      intro k
      by_cases hk : key b = k
      · rw [List.filter_cons_of_pos (by simpa using hk), List.map_cons,
          List.sum_cons, if_pos hk]
      · rw [List.filter_cons_of_neg (by simpa using hk), if_neg hk, zero_add]
    have hmap : ks.map
        (fun k => (((b :: t).filter (fun x => decide (key x = k))).map f).sum) =
        ks.map (fun k => (if key b = k then f b else 0) +
          ((t.filter (fun x => decide (key x = k))).map f).sum) :=
      List.map_congr_left (fun k _ => hsplit k)
    rw [hmap, List.sum_map_add,
      sum_map_ite_eq ks (key b) (f b) hnd (hmem b (List.mem_cons_self b t)),
      ih ks hnd (fun x hx => hmem x (List.mem_cons_of_mem _ hx))]
    simp

/-- The bucket totals of group_by(key).agg(sum f) add up to the plain
sum of f over the grouped rows. -/
theorem groupBySum_total [DecidableEq κ] (key : β → κ) (f : β → ℚ)
    (l : List β) :
    ((groupBySum key f l).map (fun p => p.2)).sum = (l.map f).sum := by
  unfold groupBySum
  rw [List.map_map]
  have : ((l.map key).dedup.map
      ((fun p : κ × ℚ => p.2) ∘
        (fun k => (k, ((l.filter (fun b => decide (key b = k))).map f).sum)))) =
      ((l.map key).dedup.map
        (fun k => ((l.filter (fun b => decide (key b = k))).map f).sum)) := rfl
  rw [this]
  exact sum_fiberwise key f l (l.map key).dedup (List.nodup_dedup _)
    (fun b hb => List.mem_dedup.mpr (List.mem_map_of_mem key hb))

namespace PaginaInicial

/-- The branch filter plus the dropna on DATA_PEDIDO applied by
carregar_dados in Pagina_Inicial before any aggregation. -/
def load_filtered (m : List CRec) (filiais : List String) : List CRec :=
  (m.filter (fun c => filiais.contains c.codfilial)).filter
    (fun c => c.dataPedido.isSome)

/-- The period filter of the month/year sales chart. -/
def df_periodo (rows : List CRec) (lo hi : Date) : List CRec :=
  rows.filter (fun c =>
    match c.dataPedido with
    | some d => lo.leB d && d.leB hi
    | none => false)

/-- group_by(Ano, Mes).agg(sum VLTOTAL) of the sales chart. -/
def vendas_por_mes_ano (rows : List CRec) : List (Option (Nat × Nat) × ℚ) :=
  groupBySum (fun c => c.dataPedido.map (fun d => (d.y, d.m)))
    (fun c => c.vltotal) rows

end PaginaInicial

/-! ## Claim theorems -/

/-- Claim C1, counterexample.  The claim quantifies over every table
fetch, but the while-True page loop of Pedidos.get_data_from_supabase
(the same shape as Pedidos_Venda.fetch_pedidos and
Produto.carregar_dados) does not stop on a short page: on a table with
2500 matching rows and page size 1000 it issues a fourth request, which
returns the empty page that terminates it — not exactly 3 requests as
claimed. -/
theorem c1_counterexample :
    (pedidosFetchAll (List.replicate 2500 (0 : ℚ)) 1000).2 =
      [1000, 1000, 500, 0] ∧
    ¬ (pedidosFetchAll (List.replicate 2500 (0 : ℚ)) 1000).2.length = 3 := by
  have h := pedidosFetchAll_sizes (List.replicate 2500 (0 : ℚ)) 1000
    (by norm_num)
  rw [List.length_replicate] at h
  rw [h]
  constructor
  · decide
  · decide

/-- Claim C1, amended: Fornecedor.fetch_all_pages requests successive
offset windows and stops exactly when a page returns fewer rows than
the page size, an empty page, or the page-count ceiling is reached —
within the budget it retrieves all matching rows, every request before
the last returns a full page, and a stop before the ceiling happens on
a short (possibly empty) final page; on 2500 matching rows with page
size 1000 it issues exactly 3 requests returning 1000, 1000, 500 rows.
The while-True variant (Pedidos, Pedidos_Venda, Produto) stops only on
an empty page and issues one further request, 4 in that scenario. -/
theorem c1_amended :
    (∀ (rows : List ℚ) (limit maxPages : Nat), 0 < limit →
      rows.length ≤ maxPages * limit →
      (fornFetchAll rows limit maxPages).1 = rows) ∧
    (∀ (rows : List ℚ) (limit maxPages : Nat), 0 < limit →
      (fornFetchAll rows limit maxPages).2.length ≤ maxPages ∧
      (∀ s ∈ (fornFetchAll rows limit maxPages).2.dropLast, s = limit) ∧
      ((fornFetchAll rows limit maxPages).2.length < maxPages →
        ∀ l, (fornFetchAll rows limit maxPages).2.getLast? = some l →
          l < limit)) ∧
    (∀ rows : List ℚ, rows.length = 2500 →
      (fornFetchAll rows 1000 5000).2 = [1000, 1000, 500]) ∧
    (∀ rows : List ℚ, rows.length = 2500 →
      (pedidosFetchAll rows 1000).2 = [1000, 1000, 500, 0]) := by
  refine ⟨?_, ?_, ?_, ?_⟩
  · intro rows limit maxPages hl hle
    unfold fornFetchAll
    rw [fetchPagesF_data rows limit hl maxPages 0]
    simp only [Nat.zero_mul, List.drop_zero]
    exact List.take_of_length_le (by omega)
  · intro rows limit maxPages hl
    rw [fornFetchAll_sizes rows limit maxPages hl]
    exact ⟨sizesF_length_le limit maxPages rows.length,
      sizesF_dropLast_full limit maxPages rows.length,
      sizesF_last_short limit hl maxPages rows.length⟩
  · intro rows h
    rw [fornFetchAll_sizes rows 1000 5000 (by norm_num), h]
    decide
  · intro rows h
    rw [pedidosFetchAll_sizes rows 1000 (by norm_num), h]
    decide

/-- Claim C1, witness for the amended theorem at the concrete
scenario. -/
theorem c1_amended_witness :
    (fornFetchAll (List.replicate 2500 (0 : ℚ)) 1000 5000).2 =
      [1000, 1000, 500] ∧
    (pedidosFetchAll (List.replicate 2500 (0 : ℚ)) 1000).2 =
      [1000, 1000, 500, 0] :=
  ⟨c1_amended.2.2.1 _ (List.length_replicate 2500 (0 : ℚ)),
   c1_amended.2.2.2 _ (List.length_replicate 2500 (0 : ℚ))⟩

/-- Claim C2: after a loader call at time t0 that fetched and stored,
every call before t0 + TTL returns the stored snapshot from the cache
with no network fetch (so any two such Gets return the same snapshot),
a whole sequence of calls inside the window performs zero fetches
(at most one fresh fetch per key per TTL window), and a call at or
after t0 + TTL performs a new fetch and stores the new snapshot under
the key. -/
theorem c2_cache_ttl {α : Type} (ttl : Nat) (fetch : Nat → α)
    (c : TTLStore α) (k : String) (t0 : Nat)
    (h0 : (getData ttl fetch c k t0).fetched = true) :
    (∀ t1, t1 < t0 + ttl →
      getData ttl fetch (getData ttl fetch c k t0).cache k t1 =
        ⟨(getData ttl fetch c k t0).value,
          (getData ttl fetch c k t0).cache, false⟩) ∧
    (∀ ts : List Nat, (∀ t ∈ ts, t < t0 + ttl) →
      (runGets ttl fetch k (getData ttl fetch c k t0).cache ts).2 = 0) ∧
    (∀ t2, t0 + ttl ≤ t2 →
      getData ttl fetch (getData ttl fetch c k t0).cache k t2 =
        ⟨fetch t2,
          storeInsert (getData ttl fetch c k t0).cache k ⟨fetch t2, t2⟩,
          true⟩) := by
  have hspec := getData_fetched_spec ttl fetch c k t0 h0
  have hcache : (getData ttl fetch c k t0).cache =
      storeInsert c k ⟨fetch t0, t0⟩ := by rw [hspec]
  have hvalue : (getData ttl fetch c k t0).value = fetch t0 := by rw [hspec]
  have hlook : storeLookup (getData ttl fetch c k t0).cache k =
      some ⟨fetch t0, t0⟩ := by
    rw [hcache]
    exact storeLookup_insert_self c k _
  refine ⟨?_, ?_, ?_⟩
  · intro t1 ht1
    rw [getData_hit ttl fetch _ k ⟨fetch t0, t0⟩ t1 hlook (by simpa using ht1),
      hvalue]
  · intro ts hts
    rw [runGets_no_fetch ttl fetch k ⟨fetch t0, t0⟩ ts _ hlook
      (by simpa using hts)]
  · intro t2 ht2
    exact getData_expired ttl fetch _ k ⟨fetch t0, t0⟩ t2 hlook
      (by simpa using ht2)

/-- Claim C2, witness: TTL 60, fetch-and-store Get at t = 0, hits at
t = 30 and over the in-window times 10, 30, 59, and a fresh fetch with
store at t = 61. -/
theorem c2_cache_ttl_witness :
    (getData 60 (fun t => t) (getData 60 (fun t => t) [] "vendas_k" 0).cache
        "vendas_k" 30 =
      ⟨(getData 60 (fun t => t) [] "vendas_k" 0).value,
        (getData 60 (fun t => t) [] "vendas_k" 0).cache, false⟩) ∧
    ((runGets 60 (fun t => t) "vendas_k"
        (getData 60 (fun t => t) [] "vendas_k" 0).cache [10, 30, 59]).2 = 0) ∧
    (getData 60 (fun t => t) (getData 60 (fun t => t) [] "vendas_k" 0).cache
        "vendas_k" 61 =
      ⟨61, storeInsert (getData 60 (fun t => t) [] "vendas_k" 0).cache
        "vendas_k" ⟨61, 61⟩, true⟩) := by
  have h := c2_cache_ttl 60 (fun t => t) [] "vendas_k" 0 (by decide)
  exact ⟨h.1 30 (by decide), h.2.1 [10, 30, 59] (by decide),
    h.2.2 61 (by decide)⟩

/-- Claim C3: when any expected column is absent from the fetched
snapshot, the reshaper records a user-visible schema-mismatch error and
returns the empty table — never a table with a partial set of columns —
and, being a total function, it does not crash. -/
theorem c3_schema_mismatch (expected cols : List String)
    (allData : List FRow) (hne : allData ≠ [])
    (hmiss : ∃ c ∈ expected, c ∉ cols) :
    (fornGetData expected cols allData).df = [] ∧
    (fornGetData expected cols allData).errors = ["colunas_ausentes"] ∧
    (fornGetData expected cols allData).warnings = [] := by
  have hnem : allData.isEmpty = false := by
    rcases Bool.eq_false_or_eq_true allData.isEmpty with hb | hb
    · exact absurd (List.isEmpty_iff.mp hb) hne
    · exact hb
  rcases hmiss with ⟨c, hc, hnotin⟩
  have hany : expected.any (fun c => ! cols.contains c) = true := by
    refine List.any_eq_true.mpr ⟨c, hc, ?_⟩
    simp [hnotin]
  unfold fornGetData
  rw [hnem, if_neg (by simp), if_pos hany]
  exact ⟨rfl, rfl, rfl⟩

/-- Claim C3, witness: expected columns A, B, C against a snapshot
carrying only A and B. -/
theorem c3_schema_mismatch_witness :
    (fornGetData ["A", "B", "C"] ["A", "B"]
      [⟨Raw.date 2024 1 2, Raw.num 1, Raw.num 2, "F"⟩]).df = [] ∧
    (fornGetData ["A", "B", "C"] ["A", "B"]
      [⟨Raw.date 2024 1 2, Raw.num 1, Raw.num 2, "F"⟩]).errors =
      ["colunas_ausentes"] ∧
    (fornGetData ["A", "B", "C"] ["A", "B"]
      [⟨Raw.date 2024 1 2, Raw.num 1, Raw.num 2, "F"⟩]).warnings = [] :=
  c3_schema_mismatch ["A", "B", "C"] ["A", "B"] _ (by decide)
    ⟨"C", by decide, by decide⟩

theorem clampQt_pvenda_surj (rows : List PRow) (p : PRow) (hp : p ∈ rows) :
    ∃ p1 ∈ (clampQt rows).1, p1.pvenda = p.pvenda := by
  unfold clampQt
  by_cases hq : rows.any (fun p => decide (p.qt < 0))
  · rw [if_pos hq]
    exact ⟨{ p with qt := max p.qt 0 }, List.mem_map_of_mem _ hp, rfl⟩
  · rw [if_neg hq]
    exact ⟨p, hp, rfl⟩

theorem clampPv_warn (rows : List PRow) (p : PRow) (hp : p ∈ rows)
    (hneg : p.pvenda < 0) : (clampPv rows).2 = ["pvenda_negativa"] := by
  unfold clampPv
  have : rows.any (fun p => decide (p.pvenda < 0)) = true :=
    List.any_eq_true.mpr ⟨p, hp, by simpa using hneg⟩
  rw [if_pos this]

theorem fornClamp_warn_pv (rows : List PRow) (p : PRow) (hp : p ∈ rows)
    (hneg : p.pvenda < 0) : "pvenda_negativa" ∈ (fornClamp rows).2 := by
  unfold fornClamp
  simp only
  rcases clampQt_pvenda_surj rows p hp with ⟨p1, hp1, hpe⟩
  rw [clampPv_warn (clampQt rows).1 p1 hp1 (by rw [hpe]; exact hneg)]
  exact List.mem_append_right _ (List.mem_singleton_self _)

theorem fornGetData_main (expected cols : List String) (allData : List FRow)
    (hne : allData.isEmpty = false)
    (hcols : expected.any (fun c => ! cols.contains c) = false) :
    fornGetData expected cols allData =
      ⟨(fornClamp (fornValidRows allData)).1,
        (if allData.any (fun r => (parseDate r.DATA).isNone) then
          ["valores_invalidos_DATA"] else []) ++
        (if (allData.filterMap fornParseRow).any (fun p => ! anoMesOk p) then
          ["ano_mes_invalidos"] else []) ++
        (fornClamp (fornValidRows allData)).2 ++
        (if (fornClamp (fornValidRows allData)).1.isEmpty then
          ["dataframe_vazio_para_periodo"] else []), []⟩ := by
  unfold fornGetData
  rw [hne, if_neg (by simp), hcols, if_neg (by simp)]

/-- Claim C7: after Fornecedor.get_data_from_supabase, the QT and
PVENDA columns of the returned dataframe carry no negative value (they
were clamped at zero), and whenever a surviving row carried a negative
quantity or price a warning was logged. -/
theorem c7_negative_clamp (expected cols : List String)
    (allData : List FRow) :
    (∀ p ∈ (fornGetData expected cols allData).df,
      0 ≤ p.qt ∧ 0 ≤ p.pvenda) ∧
    (allData.isEmpty = false →
      expected.any (fun c => ! cols.contains c) = false →
      ∀ p ∈ fornValidRows allData,
        (p.qt < 0 →
          "qt_negativa" ∈ (fornGetData expected cols allData).warnings) ∧
        (p.pvenda < 0 →
          "pvenda_negativa" ∈
            (fornGetData expected cols allData).warnings)) := by
  constructor
  · intro p hp
    unfold fornGetData at hp
    by_cases h1 : allData.isEmpty
    · rw [if_pos h1] at hp
      simp at hp
    · rw [if_neg h1] at hp
      by_cases h2 : expected.any (fun c => ! cols.contains c)
      · rw [if_pos h2] at hp
        simp at hp
      · rw [if_neg h2] at hp
        exact fornClamp_nonneg _ p hp
  · intro hne hcols p hp
    rw [fornGetData_main expected cols allData hne hcols]
    constructor
    · intro hneg
      have hmem := fornClamp_warn (fornValidRows allData) p hp hneg
      simp only [List.append_assoc]
      exact List.mem_append_right _ (List.mem_append_right _
        (List.mem_append_left _ hmem))
    · intro hneg
      have hmem := fornClamp_warn_pv (fornValidRows allData) p hp hneg
      simp only [List.append_assoc]
      exact List.mem_append_right _ (List.mem_append_right _
        (List.mem_append_left _ hmem))

/-- Claim C7, witness: a snapshot with one negative quantity and one
negative price; both columns come back clamped and both warnings are
logged. -/
theorem c7_negative_clamp_witness :
    (∀ p ∈ (fornGetData fornExpectedCols fornExpectedCols
        [⟨Raw.date 2024 1 2, Raw.num (-3), Raw.num 5, "F1"⟩,
         ⟨Raw.date 2024 1 3, Raw.num 2, Raw.num (-7), "F2"⟩]).df,
      0 ≤ p.qt ∧ 0 ≤ p.pvenda) ∧
    ("qt_negativa" ∈ (fornGetData fornExpectedCols fornExpectedCols
        [⟨Raw.date 2024 1 2, Raw.num (-3), Raw.num 5, "F1"⟩,
         ⟨Raw.date 2024 1 3, Raw.num 2, Raw.num (-7), "F2"⟩]).warnings) ∧
    ("pvenda_negativa" ∈ (fornGetData fornExpectedCols fornExpectedCols
        [⟨Raw.date 2024 1 2, Raw.num (-3), Raw.num 5, "F1"⟩,
         ⟨Raw.date 2024 1 3, Raw.num 2, Raw.num (-7), "F2"⟩]).warnings) := by
  have h := c7_negative_clamp fornExpectedCols fornExpectedCols
    [⟨Raw.date 2024 1 2, Raw.num (-3), Raw.num 5, "F1"⟩,
     ⟨Raw.date 2024 1 3, Raw.num 2, Raw.num (-7), "F2"⟩]
  have hval : fornValidRows
      [⟨Raw.date 2024 1 2, Raw.num (-3), Raw.num 5, "F1"⟩,
       ⟨Raw.date 2024 1 3, Raw.num 2, Raw.num (-7), "F2"⟩] =
      [⟨⟨2024, 1, 2⟩, -3, 5, -15, 1, 2024, "F1"⟩,
       ⟨⟨2024, 1, 3⟩, 2, -7, -14, 1, 2024, "F2"⟩] := by
    simp [fornValidRows, fornParseRow, parseDate, numOrZero, parseNum,
      anoMesOk]
    norm_num
  refine ⟨h.1, ?_, ?_⟩
  · refine (h.2 (by decide) (by decide)
      ⟨⟨2024, 1, 2⟩, -3, 5, -15, 1, 2024, "F1"⟩ ?_).1 (by norm_num)
    rw [hval]
    exact List.mem_cons_self _ _
  · refine (h.2 (by decide) (by decide)
      ⟨⟨2024, 1, 3⟩, 2, -7, -14, 1, 2024, "F2"⟩ ?_).2 (by norm_num)
    rw [hval]
    exact List.mem_cons_of_mem _ (List.mem_cons_self _ _)

/-- Claim C8: when no row matches the selected period, the paginated
fetch returns the empty snapshot and the loader records the
user-visible no-data warning with no error (and, being total, no
crash); likewise Pedidos_Venda returns the empty dataframe and its main
page shows the no-data message. -/
theorem c8_no_data (expected cols : List String) (rows : List FRow)
    (lo hi : Date) (limit maxPages : Nat) (hl : 0 < limit)
    (hnone : rows.filter (matchesWindow lo hi) = []) :
    fornGetData expected cols
      ((fornFetchAll (rows.filter (matchesWindow lo hi)) limit maxPages).1) =
      ⟨[], ["nenhum_dado_retornado"], []⟩ ∧
    PedidosVenda.fetch_pedidos ([] : List PedidosVenda.PVRow) = [] ∧
    PedidosVenda.mainMessages (PedidosVenda.fetch_pedidos []) =
      ["sem_dados_para_periodo"] := by
  refine ⟨?_, rfl, rfl⟩
  rw [hnone]
  have hdata : (fornFetchAll ([] : List FRow) limit maxPages).1 = [] := by
    unfold fornFetchAll
    rw [fetchPagesF_data ([] : List FRow) limit hl maxPages 0]
    simp
  rw [hdata]
  rfl

/-- Claim C8, witness: a one-row table whose date falls outside the
January 2024 window. -/
theorem c8_no_data_witness :
    fornGetData fornExpectedCols fornExpectedCols
      ((fornFetchAll
        (([⟨Raw.date 2024 5 1, Raw.num 1, Raw.num 1, "F"⟩] : List FRow).filter
          (matchesWindow ⟨2024, 1, 1⟩ ⟨2024, 1, 31⟩)) 1000 5000).1) =
      ⟨[], ["nenhum_dado_retornado"], []⟩ ∧
    PedidosVenda.fetch_pedidos ([] : List PedidosVenda.PVRow) = [] ∧
    PedidosVenda.mainMessages (PedidosVenda.fetch_pedidos []) =
      ["sem_dados_para_periodo"] :=
  c8_no_data fornExpectedCols fornExpectedCols
    [⟨Raw.date 2024 5 1, Raw.num 1, Raw.num 1, "F"⟩]
    ⟨2024, 1, 1⟩ ⟨2024, 1, 31⟩ 1000 5000 (by norm_num) (by decide)

/-- Claim C4: the derived per-row total equals quantity times unit
price — valor_total in Pedidos_Venda.fetch_pedidos and VLTOTAL in
Pagina_Inicial.update_cache — and the windowed total aggregate (the
month/year buckets of the sales chart over the selected period) sums to
exactly the sum of quantity times unit price over the rows whose date
falls within the window. -/
theorem c4_totals :
    (∀ allData : List PedidosVenda.PVRow,
      ∀ out ∈ PedidosVenda.fetch_pedidos allData,
        out.valor_total = out.qt * out.pvenda) ∧
    (∀ r : PaginaInicial.RawRec,
      (PaginaInicial.mkRec r).vltotal =
        (PaginaInicial.mkRec r).pvenda * ((PaginaInicial.mkRec r).qt : ℚ)) ∧
    (∀ (m : List PaginaInicial.CRec) (lo hi : Date),
      (∀ c ∈ m, c.vltotal = c.pvenda * (c.qt : ℚ)) →
      ((PaginaInicial.vendas_por_mes_ano
          (PaginaInicial.df_periodo m lo hi)).map (fun p => p.2)).sum =
        ((PaginaInicial.df_periodo m lo hi).map
          (fun c => c.pvenda * (c.qt : ℚ))).sum) := by
  refine ⟨?_, ?_, ?_⟩
  · intro allData out hout
    rcases List.mem_map.mp hout with ⟨r, _, he⟩
    rw [← he]
  · intro r
    rfl
  · intro m lo hi h
    unfold PaginaInicial.vendas_por_mes_ano
    rw [groupBySum_total]
    apply congrArg List.sum
    apply List.map_congr_left
    intro c hc
    have hcm : c ∈ m := List.mem_of_mem_filter hc
    exact h c hcm

/-- Claim C4, witness: two orders in different months; the per-row
totals and the bucket totals over the full-year window line up. -/
theorem c4_totals_witness :
    ((PedidosVenda.fetch_pedidos
      [⟨"10", Raw.date 2024 1 5, Raw.num 3, Raw.num 2⟩]).map
        (fun out => out.valor_total)) =
      ((PedidosVenda.fetch_pedidos
        [⟨"10", Raw.date 2024 1 5, Raw.num 3, Raw.num 2⟩]).map
          (fun out => out.qt * out.pvenda)) ∧
    ((PaginaInicial.vendas_por_mes_ano
        (PaginaInicial.df_periodo
          [⟨"1", 2, 3, "1", some ⟨2024, 1, 10⟩, 6⟩,
           ⟨"2", 5, 2, "1", some ⟨2024, 2, 5⟩, 10⟩]
          ⟨2024, 1, 1⟩ ⟨2024, 12, 31⟩)).map (fun p => p.2)).sum =
      ((PaginaInicial.df_periodo
          [⟨"1", 2, 3, "1", some ⟨2024, 1, 10⟩, 6⟩,
           ⟨"2", 5, 2, "1", some ⟨2024, 2, 5⟩, 10⟩]
          ⟨2024, 1, 1⟩ ⟨2024, 12, 31⟩).map
        (fun c => c.pvenda * (c.qt : ℚ))).sum := by
  constructor
  · apply List.map_congr_left
    intro out hout
    exact c4_totals.1 _ out hout
  · refine c4_totals.2.2 _ ⟨2024, 1, 1⟩ ⟨2024, 12, 31⟩ ?_
    intro c hc
    rcases List.mem_cons.mp hc with h1 | h1
    · rw [h1]; norm_num
    · rcases List.mem_cons.mp h1 with h2 | h2
      · rw [h2]; norm_num
      · cases h2

theorem prodKept_length (l : List Produto.PrRow) :
    (Produto.prodKept l).length =
      (l.filter (fun r => (parseDate r.DATA).isSome)).length := by
  induction l with
  | nil => rfl
  | cons r t ih =>
    unfold Produto.prodKept at ih ⊢
    cases hd : parseDate r.DATA with
    | some dt => simp [List.filterMap_cons, hd, List.filter_cons, ih]
    | none => simp [List.filterMap_cons, hd, List.filter_cons, ih]

theorem carregar_dados_main (cols : List String)
    (allData : List Produto.PrRow) (hne : allData.isEmpty = false)
    (hcols : Produto.expected_columns.any (fun c => ! cols.contains c) =
      false) :
    Produto.carregar_dados cols allData =
      ⟨Produto.prodKept (allData.filter (fun r => r.CODOPER == "S")),
        (if (allData.filter (fun r => r.CODOPER == "S")).any
            (fun r => (parseDate r.DATA).isNone) then
          ["valores_invalidos_DATA"] else []), []⟩ := by
  unfold Produto.carregar_dados
  rw [hne, if_neg (by simp), hcols, if_neg (by simp)]

/-- Claim C5, counterexample.  The claim says a warning is recorded
when an unparseable numeric value is coerced to zero; on a row whose QT
field holds the literal string abc, Produto.carregar_dados coerces the
quantity to zero but records no warning at all. -/
theorem c5_counterexample :
    ((Produto.carregar_dados Produto.expected_columns
      [⟨"S", "PROD X", "1", Raw.date 2024 1 2, Raw.str "abc", Raw.num 5,
        Raw.num 1⟩]).df.map (fun p => p.qt) = [0]) ∧
    (Produto.carregar_dados Produto.expected_columns
      [⟨"S", "PROD X", "1", Raw.date 2024 1 2, Raw.str "abc", Raw.num 5,
        Raw.num 1⟩]).warnings = [] := by
  constructor
  · decide
  · decide

/-- Claim C5, amended: type coercion maps every unparseable value in a
numeric column to zero silently — no warning is recorded for numeric
coercion, the only data-quality warning the loader can emit is the
invalid-date one — and rows whose date column fails to parse are
dropped from the result set, with a warning recorded when that
happens. -/
theorem c5_amended (cols : List String) (allData : List Produto.PrRow)
    (hne : allData ≠ [])
    (hcols : ∀ c ∈ Produto.expected_columns, c ∈ cols) :
    (∀ out ∈ (Produto.carregar_dados cols allData).df,
      ∃ r ∈ allData, r.CODOPER = "S" ∧
        parseDate r.DATA = some out.dataPedido ∧
        out.qt = numTrunc r.QT ∧
        out.valorTotalVendido = numOrZero r.PVENDA ∧
        (parseNum r.QT = none → out.qt = 0) ∧
        (parseNum r.PVENDA = none → out.valorTotalVendido = 0)) ∧
    ((∃ r ∈ allData, r.CODOPER = "S" ∧ parseDate r.DATA = none) →
      "valores_invalidos_DATA" ∈
        (Produto.carregar_dados cols allData).warnings) ∧
    ((Produto.carregar_dados cols allData).df.length =
      ((allData.filter (fun r => r.CODOPER == "S")).filter
        (fun r => (parseDate r.DATA).isSome)).length) ∧
    (∀ w ∈ (Produto.carregar_dados cols allData).warnings,
      w = "valores_invalidos_DATA") := by
  have hnem : allData.isEmpty = false := by
    rcases Bool.eq_false_or_eq_true allData.isEmpty with hb | hb
    · exact absurd (List.isEmpty_iff.mp hb) hne
    · exact hb
  have hanycols : Produto.expected_columns.any (fun c => ! cols.contains c) =
      false := by
    rw [List.any_eq_false]
    intro c hc
    simp [hcols c hc]
  rw [carregar_dados_main cols allData hnem hanycols]
  refine ⟨?_, ?_, ?_, ?_⟩
  · intro out hout
    simp only at hout
    rcases List.mem_filterMap.mp hout with ⟨r, hr, hsome⟩
    rcases Option.map_eq_some'.mp hsome with ⟨dt, hdt, hmk⟩
    have hrall : r ∈ allData := List.mem_of_mem_filter hr
    have hrS : r.CODOPER = "S" := by
      have := List.of_mem_filter hr
      simpa using this
    refine ⟨r, hrall, hrS, ?_, ?_, ?_, ?_, ?_⟩
    · rw [hdt, ← hmk]; rfl
    · rw [← hmk]; rfl
    · rw [← hmk]; rfl
    · intro hq
      rw [← hmk]
      show numTrunc r.QT = 0
      unfold numTrunc
      rw [hq]
    · intro hp
      rw [← hmk]
      show numOrZero r.PVENDA = 0
      unfold numOrZero
      rw [hp]
      rfl
  · rintro ⟨r, hr, hrS, hrd⟩
    simp only
    have hrf : r ∈ allData.filter (fun r => r.CODOPER == "S") :=
      List.mem_filter.mpr ⟨hr, by simp [hrS]⟩
    have hany : (allData.filter (fun r => r.CODOPER == "S")).any
        (fun r => (parseDate r.DATA).isNone) = true :=
      List.any_eq_true.mpr ⟨r, hrf, by simp [hrd]⟩
    rw [hany, if_pos rfl]
    exact List.mem_singleton_self _
  · simp only
    exact prodKept_length _
  · intro w hw
    simp only at hw
    by_cases hany : (allData.filter (fun r => r.CODOPER == "S")).any
        (fun r => (parseDate r.DATA).isNone)
    · rw [if_pos hany] at hw
      simpa using hw
    · rw [if_neg hany] at hw
      cases hw

/-- Claim C5, witness for the amended theorem: a parseable row together
with a row whose date is the unparseable string not-a-date; the latter
is dropped with the date warning recorded, and the good row keeps its
coerced fields. -/
theorem c5_amended_witness :
    ("valores_invalidos_DATA" ∈
      (Produto.carregar_dados Produto.expected_columns
        [⟨"S", "A", "1", Raw.date 2024 1 2, Raw.num 4, Raw.num 5, Raw.num 1⟩,
         ⟨"S", "B", "2", Raw.str "not-a-date", Raw.num 1, Raw.num 2,
           Raw.num 1⟩]).warnings) ∧
    ((Produto.carregar_dados Produto.expected_columns
        [⟨"S", "A", "1", Raw.date 2024 1 2, Raw.num 4, Raw.num 5, Raw.num 1⟩,
         ⟨"S", "B", "2", Raw.str "not-a-date", Raw.num 1, Raw.num 2,
           Raw.num 1⟩]).df.length =
      ((([⟨"S", "A", "1", Raw.date 2024 1 2, Raw.num 4, Raw.num 5, Raw.num 1⟩,
          ⟨"S", "B", "2", Raw.str "not-a-date", Raw.num 1, Raw.num 2,
            Raw.num 1⟩] : List Produto.PrRow).filter
        (fun r => r.CODOPER == "S")).filter
          (fun r => (parseDate r.DATA).isSome)).length) := by
  have h := c5_amended Produto.expected_columns
    [⟨"S", "A", "1", Raw.date 2024 1 2, Raw.num 4, Raw.num 5, Raw.num 1⟩,
     ⟨"S", "B", "2", Raw.str "not-a-date", Raw.num 1, Raw.num 2, Raw.num 1⟩]
    (by decide) (by decide)
  exact ⟨h.2.1 ⟨_, List.mem_cons_of_mem _ (List.mem_cons_self _ _),
    rfl, rfl⟩, h.2.2.1⟩

/-- Claim C9: every row of the product page dataframe carries
CODOPER = S (return rows such as CODOPER = ED are excluded before any
processing), and the dataframe — hence every aggregate computed from
it — is a function of the CODOPER = S rows of the raw snapshot
alone. -/
theorem c9_codoper_filter (cols : List String)
    (allData : List Produto.PrRow) :
    (∀ out ∈ (Produto.carregar_dados cols allData).df,
      out.codoper = "S") ∧
    ((Produto.carregar_dados cols allData).df =
      Produto.prodKept (allData.filter (fun r => r.CODOPER == "S")) ∨
      (Produto.carregar_dados cols allData).df = []) := by
  constructor
  · intro out hout
    unfold Produto.carregar_dados at hout
    by_cases h1 : allData.isEmpty
    · rw [if_pos h1] at hout
      simp at hout
    · rw [if_neg h1] at hout
      by_cases h2 : Produto.expected_columns.any (fun c => ! cols.contains c)
      · rw [if_pos h2] at hout
        simp at hout
      · rw [if_neg h2] at hout
        simp only at hout
        rcases List.mem_filterMap.mp hout with ⟨r, hr, hsome⟩
        rcases Option.map_eq_some'.mp hsome with ⟨dt, _, hmk⟩
        have hrS : r.CODOPER = "S" := by
          have := List.of_mem_filter hr
          simpa using this
        rw [← hmk]
        exact hrS
  · unfold Produto.carregar_dados
    by_cases h1 : allData.isEmpty
    · rw [if_pos h1]
      right
      rfl
    · rw [if_neg h1]
      by_cases h2 : Produto.expected_columns.any (fun c => ! cols.contains c)
      · rw [if_pos h2]
        right
        rfl
      · rw [if_neg h2]
        left
        rfl

/-- Claim C9, witness: one sale row (CODOPER S) and one return row
(CODOPER ED); the loaded dataframe equals the pipeline applied to only
the S-filtered rows, and its row carries CODOPER S. -/
theorem c9_codoper_filter_witness :
    (Produto.mkProdRow
      ⟨"S", "A", "1", Raw.date 2024 1 2, Raw.num 4, Raw.num 5, Raw.num 1⟩
      ⟨2024, 1, 2⟩).codoper = "S" ∧
    ((Produto.carregar_dados Produto.expected_columns
      [⟨"S", "A", "1", Raw.date 2024 1 2, Raw.num 4, Raw.num 5, Raw.num 1⟩,
       ⟨"ED", "B", "2", Raw.date 2024 1 3, Raw.num 1, Raw.num 2,
         Raw.num 1⟩]).df =
      Produto.prodKept
        (([⟨"S", "A", "1", Raw.date 2024 1 2, Raw.num 4, Raw.num 5,
            Raw.num 1⟩,
           ⟨"ED", "B", "2", Raw.date 2024 1 3, Raw.num 1, Raw.num 2,
             Raw.num 1⟩] : List Produto.PrRow).filter
          (fun r => r.CODOPER == "S")) ∨
     (Produto.carregar_dados Produto.expected_columns
      [⟨"S", "A", "1", Raw.date 2024 1 2, Raw.num 4, Raw.num 5, Raw.num 1⟩,
       ⟨"ED", "B", "2", Raw.date 2024 1 3, Raw.num 1, Raw.num 2,
         Raw.num 1⟩]).df = []) := by
  have h := c9_codoper_filter Produto.expected_columns
    [⟨"S", "A", "1", Raw.date 2024 1 2, Raw.num 4, Raw.num 5, Raw.num 1⟩,
     ⟨"ED", "B", "2", Raw.date 2024 1 3, Raw.num 1, Raw.num 2, Raw.num 1⟩]
  refine ⟨?_, h.2⟩
  apply h.1
  show _ ∈ (Produto.carregar_dados _ _).df
  have hdf : (Produto.carregar_dados Produto.expected_columns
      [⟨"S", "A", "1", Raw.date 2024 1 2, Raw.num 4, Raw.num 5, Raw.num 1⟩,
       ⟨"ED", "B", "2", Raw.date 2024 1 3, Raw.num 1, Raw.num 2,
         Raw.num 1⟩]).df =
      [Produto.mkProdRow
        ⟨"S", "A", "1", Raw.date 2024 1 2, Raw.num 4, Raw.num 5, Raw.num 1⟩
        ⟨2024, 1, 2⟩] := rfl
  rw [hdf]
  exact List.mem_cons_self _ _

/-- Claim C6, counterexample.  The claim asserts the watermark is
monotonically non-decreasing across every sequence of successful
fetch-and-store operations; but INSERT OR REPLACE rewrites a whole
order row, so a re-fetch of an existing order with an earlier
DATA_PEDIDO (admitted by the seven-day rewound request filter, shown by
the optKeyLe conjunct) lowers MAX(DATA_PEDIDO): here from 2024-01-10
to 2024-01-05. -/
theorem c6_counterexample :
    PaginaInicial.watermark
      (PaginaInicial.update_cache []
        [⟨"1", Raw.num 5, Raw.num 2, "1", some ⟨2024, 1, 10⟩⟩]) =
      some 20240110 ∧
    PaginaInicial.get_latest_timestamp
      (PaginaInicial.update_cache []
        [⟨"1", Raw.num 5, Raw.num 2, "1", some ⟨2024, 1, 10⟩⟩]) =
      some 20240103 ∧
    (∀ r ∈ ([⟨"1", Raw.num 5, Raw.num 2, "1", some ⟨2024, 1, 5⟩⟩] :
        List PaginaInicial.RawRec),
      PaginaInicial.optKeyLe
        (PaginaInicial.get_latest_timestamp
          (PaginaInicial.update_cache []
            [⟨"1", Raw.num 5, Raw.num 2, "1", some ⟨2024, 1, 10⟩⟩]))
        (PaginaInicial.rawDateKey r) = true) ∧
    PaginaInicial.watermark
      (PaginaInicial.update_cache
        (PaginaInicial.update_cache []
          [⟨"1", Raw.num 5, Raw.num 2, "1", some ⟨2024, 1, 10⟩⟩])
        [⟨"1", Raw.num 5, Raw.num 2, "1", some ⟨2024, 1, 5⟩⟩]) =
      some 20240105 ∧
    PaginaInicial.optKeyLe
      (PaginaInicial.watermark
        (PaginaInicial.update_cache []
          [⟨"1", Raw.num 5, Raw.num 2, "1", some ⟨2024, 1, 10⟩⟩]))
      (PaginaInicial.watermark
        (PaginaInicial.update_cache
          (PaginaInicial.update_cache []
            [⟨"1", Raw.num 5, Raw.num 2, "1", some ⟨2024, 1, 10⟩⟩])
          [⟨"1", Raw.num 5, Raw.num 2, "1", some ⟨2024, 1, 5⟩⟩])) =
      false := by
  refine ⟨by decide, by decide, by decide, by decide, by decide⟩

/-- Claim C6, amended: the watermark is none (the epoch default, no
request filter) when no prior snapshot exists, and it is monotonically
non-decreasing across every sequence of successful fetch-and-store
operations in which no stored record rewrites an existing order to an
earlier DATA_PEDIDO. -/
theorem c6_amended :
    PaginaInicial.watermark [] = none ∧
    PaginaInicial.get_latest_timestamp [] = none ∧
    (∀ (m : List PaginaInicial.CRec) (data : List PaginaInicial.RawRec),
      (∀ r ∈ data, ∀ old ∈ m, old.numped = r.NUMPED →
        PaginaInicial.optKeyLe (PaginaInicial.dateKey old)
          (PaginaInicial.rawDateKey r) = true) →
      PaginaInicial.optKeyLe (PaginaInicial.watermark m)
        (PaginaInicial.watermark (PaginaInicial.update_cache m data)) =
        true) :=
  ⟨rfl, rfl, fun m data h => PaginaInicial.watermark_mono m data h⟩

/-- Claim C6, witness for the amended theorem: a re-fetch of order 1
with a later date together with a new order 2 keeps the watermark
non-decreasing. -/
theorem c6_amended_witness :
    PaginaInicial.optKeyLe
      (PaginaInicial.watermark
        (PaginaInicial.update_cache []
          [⟨"1", Raw.num 5, Raw.num 2, "1", some ⟨2024, 1, 10⟩⟩]))
      (PaginaInicial.watermark
        (PaginaInicial.update_cache
          (PaginaInicial.update_cache []
            [⟨"1", Raw.num 5, Raw.num 2, "1", some ⟨2024, 1, 10⟩⟩])
          [⟨"1", Raw.num 5, Raw.num 2, "1", some ⟨2024, 1, 12⟩⟩,
           ⟨"2", Raw.num 3, Raw.num 1, "1", some ⟨2024, 1, 4⟩⟩])) = true :=
  c6_amended.2.2
    (PaginaInicial.update_cache []
      [⟨"1", Raw.num 5, Raw.num 2, "1", some ⟨2024, 1, 10⟩⟩])
    [⟨"1", Raw.num 5, Raw.num 2, "1", some ⟨2024, 1, 12⟩⟩,
     ⟨"2", Raw.num 3, Raw.num 1, "1", some ⟨2024, 1, 4⟩⟩]
    (by decide)

/-- Claim C10: NUMPED is the mirror's primary key and updates go
through INSERT OR REPLACE, so across any sequence of synchronization
batches — including re-fetches of the overlapping seven-day window —
the mirror keeps at most one row per NUMPED: its key column stays
duplicate-free. -/
theorem c10_unique_numped (batches : List (List PaginaInicial.RawRec))
    (m : List PaginaInicial.CRec)
    (h : (PaginaInicial.mirrorKeys m).Nodup) :
    (PaginaInicial.mirrorKeys
      (batches.foldl PaginaInicial.update_cache m)).Nodup := by
  induction batches generalizing m with
  | nil => exact h
  | cons b rest ih =>
    exact ih (PaginaInicial.update_cache m b)
      (PaginaInicial.update_cache_nodup b m h)

/-- Claim C10, witness: two synchronization batches where the second
re-fetches order 1 from the overlapping window; the mirror keys remain
duplicate-free. -/
theorem c10_unique_numped_witness :
    (PaginaInicial.mirrorKeys
      (([[⟨"1", Raw.num 5, Raw.num 2, "1", some ⟨2024, 1, 10⟩⟩,
          ⟨"2", Raw.num 3, Raw.num 1, "1", some ⟨2024, 1, 11⟩⟩],
         [⟨"1", Raw.num 6, Raw.num 2, "1", some ⟨2024, 1, 12⟩⟩]] :
        List (List PaginaInicial.RawRec)).foldl
          PaginaInicial.update_cache [])).Nodup :=
  c10_unique_numped
    [[⟨"1", Raw.num 5, Raw.num 2, "1", some ⟨2024, 1, 10⟩⟩,
      ⟨"2", Raw.num 3, Raw.num 1, "1", some ⟨2024, 1, 11⟩⟩],
     [⟨"1", Raw.num 6, Raw.num 2, "1", some ⟨2024, 1, 12⟩⟩]]
    [] (by decide)

end Dash
